import Mathlib

/-!
# Verification of the ormx-macros schema emitter

Shallow embedding of `ormx-macros/src/table/schema.rs` and the surrounding
pipeline described by the specification.  The emitters build Rust source
fragments out of a resolved table descriptor; we model the descriptor, the
strings the emitters format, the success/failure of the `.parse().unwrap()`
calls they contain, and the runtime semantics of the generated
`columns`/`arguments`/`from_row` items.
-/

namespace Ormx

/-- Accessor directive kinds (spec §3, `AccessorDirective.kind`). -/
inductive AccessorKind
| getOne
| getOptional
| getMany
| setter
deriving DecidableEq, Repr

/-- Field roles (spec §3, `FieldDescriptor.role`). -/
inductive Role
| id
| dbDefault
| regular
deriving DecidableEq, Repr

/-- One field of the record, mirroring `TableField`.  `field` is the Rust
field identifier; `columnOverride` is the optional `#[ormx(column = "...")]`
override; `role`, `customType`, `typeOverride` and `accessors` carry the
annotations the Semantic Model Builder validates (spec §3/§4.2; the file
defining `TableField` is not under `src/`, so its shape is taken from the
spec's `FieldDescriptor`). -/
structure TableField where
  field : String
  columnOverride : Option String
  role : Role
  customType : Bool
  typeOverride : Option String
  accessors : List AccessorKind
deriving DecidableEq, Repr

/-- Modelled from the spec: `TableField::column()` is not under `src/`;
spec §3 says `column_name` "defaults to `name`", so the column of a field is
its override when present and the Rust field name otherwise. -/
def TableField.column (f : TableField) : String :=
  f.columnOverride.getD f.field

/-- The resolved table descriptor, mirroring `Table<B>` (spec §3
`TableDescriptor`; the defining file is not under `src/`). -/
structure Table where
  ident : String
  table : String
  insertable : Option String
  deletable : Bool
  fields : List TableField
deriving DecidableEq, Repr

/-- The Rust field identifiers of a field list, in declaration order. -/
def fieldNames (fields : List TableField) : List String :=
  fields.map TableField.field

/-- The column names of a field list, in declaration order. -/
def columnNames (fields : List TableField) : List String :=
  fields.map TableField.column

/-! ## The emitted fragments

`columns`, `arguments` and `from_row` in `schema.rs` assemble a Rust string
with `format!` / `join` / `collect` and feed it to
`str::parse::<TokenStream>().unwrap()`.  We reproduce the formatted strings
exactly.  The `parse` call lexes the string as Rust tokens: the field
identifiers interpolated by `arguments`/`from_row` always lex, but the column
names are spliced *inside manually written double-quoted string literals*
(`format!(" \"{}\"", s.column())` and `row.try_get(\"{1}\")`), so a column
name containing a double quote breaks the literal (lex error, `unwrap`
panics) and a backslash starts an escape sequence (panicking on an invalid
escape, and silently denoting a different column otherwise).  `litSafe`
is the condition under which the literal lexes and denotes exactly the
column string; emitters return `none` where the real code panics or the
fragment no longer carries the intended column name. -/

/-- A string can be spliced verbatim into a double-quoted Rust string
literal: it contains no `"` (which terminates the literal early) and no
backslash (which starts an escape sequence). -/
def litSafe (s : String) : Bool :=
  s.data.all (fun c => !(c == '"' || c == '\\'))

/-- Every column name of the descriptor is literal-safe. -/
def columnsLitSafe (t : Table) : Bool :=
  t.fields.all (fun f => litSafe f.column)

/-- The string built in `columns`:
`table.fields.iter().map(|s| format!(" \"{}\"", s.column())).join(", ")`. -/
def columnsFragment (t : Table) : String :=
  String.intercalate ", " (t.fields.map (fun f => " \"" ++ f.column ++ "\""))

/-- `columns` in `schema.rs`: formats `columnsFragment` and runs
`.parse().unwrap()` on it; `none` models the panic of `unwrap` (or a
literal whose denotation differs from the column string). -/
def columns (t : Table) : Option String :=
  if columnsLitSafe t then some (columnsFragment t) else none

/-- The string built in `arguments`:
`table.fields.iter().map(|s| format!(" arguments.add(&self.{}); ", s.field)).collect::<String>()`.
Field identifiers always lex, so the subsequent `.parse().unwrap()` never
panics and `arguments` is total. -/
def arguments (t : Table) : String :=
  String.join (t.fields.map (fun f => " arguments.add(&self." ++ f.field ++ "); "))

/-- The string built in `from_row`:
`table.fields.iter().map(|field| format!(" {0}: row.try_get(\"{1}\")?", field.field, field.column())).join(", ")`. -/
def fromRowFragment (t : Table) : String :=
  String.intercalate ", "
    (t.fields.map (fun f => " " ++ f.field ++ ": row.try_get(\"" ++ f.column ++ "\")?"))

/-- `from_row` in `schema.rs`: formats `fromRowFragment` and runs
`.parse().unwrap()` on it; as in `columns`, the column names sit inside
double-quoted literals, so `none` models the `unwrap` panic. -/
def from_row (t : Table) : Option String :=
  if columnsLitSafe t then some (fromRowFragment t) else none

/-- `name` in `schema.rs`: `quote!` interpolates the table name as a
properly escaped string literal, so it succeeds for every table name and the
literal denotes exactly `table.table`. -/
def name (t : Table) : String :=
  t.table

/-- The assembled `impl cherry::Schema for #table_ident { ... }` block:
`quote!` splices the four items into fixed surrounding text, so we keep the
output structural — the interpolated table identifier, the table-name
literal, and the three parsed fragments. -/
structure SchemaImpl where
  tableIdent : String
  nameFrag : String
  columnsFrag : String
  argumentsFrag : String
  fromRowFrag : String
deriving DecidableEq, Repr

/-- `impl_schema` in `schema.rs`: calls the four item emitters and splices
them; it fails (panics) exactly where `columns` or `from_row` fails. -/
def impl_schema (t : Table) : Option SchemaImpl :=
  match columns t, from_row t with
  | some c, some fr =>
      some ⟨t.ident, name t, c, arguments t, fr⟩
  | _, _ => none

/-! ## Runtime semantics of the generated code

The generated `fn columns()` body is `vec![ "c1", "c2", ...]`; its value is
the list of column strings in emitted order.  The generated `fn arguments`
body is one `arguments.add(&self.f);` statement per field; an sqlx argument
collector appends each added value.  The generated `fn from_row` body is
`Ok( Self { f1: row.try_get("c1")?, f2: row.try_get("c2")?, ... } )`; struct
literal fields are evaluated left to right and each `?` early-returns the
read error.  Runtime values are opaque to the macro; we model them as `Nat`.
A row and a struct instance are association lists (name, value); the driver's
by-name read returns the first matching column (spec §6 `try_get`). -/

/-- Value of the generated `fn columns() -> Vec<&'static str>`: the column
names in emitted (declaration) order. -/
def columnsSem (t : Table) : List String :=
  columnNames t.fields

/-- Errors of the external driver (spec §6: a generic `Error` propagated
unchanged; a failed by-name read carries the missing column). -/
inductive DbError
| columnNotFound (c : String)
deriving DecidableEq, Repr

/-- First-match by-name access into an association list (row or struct). -/
def rowGet (row : List (String × Nat)) (c : String) : Option Nat :=
  match row with
  | [] => none
  | (k, v) :: rest => if k = c then some v else rowGet rest c

/-- The driver's `row.try_get(column_name) -> Result<T, Error>` (spec §6). -/
def tryGet (row : List (String × Nat)) (c : String) : Except DbError Nat :=
  match rowGet row c with
  | some v => Except.ok v
  | none => Except.error (DbError.columnNotFound c)

/-- `self.f`: the value of field `n` in a struct instance (total in Rust;
the default is never reached on a well-formed instance). -/
def fieldValue (inst : List (String × Nat)) (n : String) : Nat :=
  (rowGet inst n).getD 0

/-- `Arguments::add`: the sqlx argument collector appends the value. -/
def argAdd (args : List Nat) (v : Nat) : List Nat :=
  args ++ [v]

/-- Semantics of the emitted `fn arguments` body: execute the
`arguments.add(&self.f);` statements in emitted order against the
collector. -/
def bindArgs (fields : List TableField) (inst : List (String × Nat))
    (args : List Nat) : List Nat :=
  match fields with
  | [] => args
  | f :: rest => bindArgs rest inst (argAdd args (fieldValue inst f.field))

/-- The per-field values `self.f` in declaration order. -/
def boundValues (fields : List TableField) (inst : List (String × Nat)) :
    List Nat :=
  fields.map (fun f => fieldValue inst f.field)

/-- Semantics of the emitted `fn from_row` body: evaluate
`f_i: row.try_get("c_i")?` left to right, propagating the first read error,
and build `Self { ... }` on success. -/
def fromRowSem (fields : List TableField) (row : List (String × Nat)) :
    Except DbError (List (String × Nat)) :=
  match fields with
  | [] => Except.ok []
  | f :: rest =>
      match tryGet row f.column with
      | Except.error e => Except.error e
      | Except.ok v =>
          match fromRowSem rest row with
          | Except.error e => Except.error e
          | Except.ok inst => Except.ok ((f.field, v) :: inst)

/-- `true` iff an `Except` is `ok` (no panic: failures are values). -/
def resultOk {α : Type} (e : Except DbError α) : Bool :=
  match e with
  | Except.ok _ => true
  | Except.error _ => false

/-- Every emitted `row.try_get("c_i")` read of the descriptor succeeds on
the row. -/
def allReadsOk (fields : List TableField) (row : List (String × Nat)) : Bool :=
  fields.all (fun f => resultOk (tryGet row f.column))

/-- The (column, value) pairs a bound instance contributes, in declaration
order. -/
def colValPairs (fields : List TableField) (inst : List (String × Nat)) :
    List (String × Nat) :=
  fields.map (fun f => (f.column, fieldValue inst f.field))

/-- The row produced by binding an instance: the emitted column list paired
positionally with the values the emitted `arguments` body added. -/
def rowOf (t : Table) (inst : List (String × Nat)) : List (String × Nat) :=
  (columnsSem t).zip (bindArgs t.fields inst [])

/-- `inst` is a struct value of the descriptor: its components are exactly
the descriptor's Rust fields, in declaration order. -/
abbrev wellFormedInst (t : Table) (inst : List (String × Nat)) : Prop :=
  inst.map Prod.fst = fieldNames t.fields

/-! ## Spec-modelled validation and Insert field set

`table::derive` and the Semantic Model Builder are not under `src/`; spec
§4.2/§7 fixes their contract. -/

/-- Model errors of the Semantic Model Builder (spec §7 taxonomy; we keep
the ones expressible over the descriptor alone). -/
inductive ModelError
| missingId
| duplicateId
| missingTypeOverride (field : String)
| duplicateAccessorKind (field : String)
deriving DecidableEq, Repr

/-- Number of fields carrying role `Id`. -/
def idCount (t : Table) : Nat :=
  (t.fields.filter (fun f => f.role == Role.id)).length

/-- Spec §4.2: a `custom_type` field without an explicit type override is a
`MissingTypeOverride` violation. -/
def fieldCustomTypeBad (f : TableField) : Bool :=
  f.customType && f.typeOverride.isNone

/-- Spec §3: at most one `Set` directive per field, and the three Get kinds
are mutually exclusive per field; this flags a violating field. -/
def fieldAccessorBad (f : TableField) : Bool :=
  decide (2 ≤ (f.accessors.filter (fun k => k == AccessorKind.setter)).length) ||
  decide (2 ≤ (f.accessors.filter (fun k => !(k == AccessorKind.setter))).length)

/-- Modelled from the spec: the Semantic Model Builder (`table::derive`, not
under `src/`).  Spec §4.2/§7: exactly one Id field (`MissingId` /
`DuplicateId`), `custom_type` needs a type override
(`MissingTypeOverride`), duplicated accessor kinds are rejected, and all
discovered errors are aggregated in one pass rather than stopping at the
first. -/
def validate (t : Table) : List ModelError :=
  (if idCount t = 0 then [ModelError.missingId] else []) ++
  (if 2 ≤ idCount t then [ModelError.duplicateId] else []) ++
  (t.fields.filter fieldCustomTypeBad).map
    (fun f => ModelError.missingTypeOverride f.field) ++
  (t.fields.filter fieldAccessorBad).map
    (fun f => ModelError.duplicateAccessorKind f.field)

/-- Modelled from the spec: the Insert Emitter's companion-type field set
(`derive_table`'s insert generation is not under `src/`).  Spec §4.4 and the
`derive_table` doc comment: all fields except the Id field and the
Default-role fields. -/
def insertFields (t : Table) : List TableField :=
  t.fields.filter (fun f => !(f.role == Role.id || f.role == Role.dbDefault))

/-! ## Helper lemmas -/

/-- Executing the emitted `arguments.add` statements appends exactly the
per-field values, in declaration order. -/
theorem bindArgs_eq (fields : List TableField) (inst : List (String × Nat)) :
    ∀ args : List Nat, bindArgs fields inst args = args ++ boundValues fields inst := by
  induction fields with
  | nil => intro args; simp [bindArgs, boundValues]
  | cons f rest ih =>
      intro args
      simp [bindArgs, boundValues, argAdd, ih]

/-! ## Concrete descriptors used as witnesses and counterexamples -/

/-- The Id field of the example descriptor, with a column override. -/
def userIdField : TableField :=
  { field := "user_id", columnOverride := some "id", role := Role.id
  , customType := false, typeOverride := none, accessors := [] }

/-- A regular field of the example descriptor. -/
def emailField : TableField :=
  { field := "email", columnOverride := none, role := Role.regular
  , customType := false, typeOverride := none
  , accessors := [AccessorKind.getOptional] }

/-- An ordinary valid descriptor: one Id field with a column override, one
regular field. -/
def userTable : Table :=
  { ident := "User"
  , table := "users"
  , insertable := some "InsertUser"
  , deletable := true
  , fields := [userIdField, emailField] }

/-- A descriptor that passes model validation but whose column override
contains a double quote, breaking the string literal `columns` formats. -/
def quotedColumnTable : Table :=
  { ident := "Bad"
  , table := "bad"
  , insertable := none
  , deletable := false
  , fields :=
      [ { field := "x", columnOverride := some "a\"b", role := Role.id
        , customType := false, typeOverride := none, accessors := [] } ] }

/-! ## C1: column list length and order -/

/-- C1: for every valid descriptor, the column list emitted by `columns`
has exactly one entry per field, and the i-th entry is the column name of
the i-th declared field. -/
theorem columns_length_and_order (t : Table) (hv : validate t = []) :
    (columnsSem t).length = t.fields.length ∧
    ∀ i : Nat, (columnsSem t)[i]? = (t.fields[i]?).map TableField.column := by
  constructor
  · simp [columnsSem, columnNames]
  · intro i
    simp [columnsSem, columnNames]

/-- C1 witness: the theorem applied to a concrete valid descriptor. -/
theorem columns_length_and_order_witness :
    (columnsSem userTable).length = userTable.fields.length :=
  (columns_length_and_order userTable (by decide)).1

/-! ## C2: emission totality

The claim says emission never fails for *any* column-name override.  It is
refuted by `quotedColumnTable`: `columns` formats the override into a
double-quoted literal and `parse().unwrap()` panics on the embedded quote.
Emission is total once the column names are literal-safe. -/

/-- C2 counterexample: a descriptor that passes model validation yet makes
`columns` (and hence `impl_schema`) fail — the `"` in the column override
breaks the formatted string literal and `unwrap` panics. -/
theorem impl_schema_panics_on_quoted_column :
    validate quotedColumnTable = [] ∧ impl_schema quotedColumnTable = none := by
  decide

/-- C2 amended: for every validated descriptor whose column names contain
neither a double quote nor a backslash, every schema item emitter succeeds
(`name` and `arguments` are total by construction). -/
theorem emission_total_on_literal_safe (t : Table) (hv : validate t = [])
    (hsafe : columnsLitSafe t = true) :
    (columns t).isSome = true ∧ (from_row t).isSome = true ∧
    (impl_schema t).isSome = true := by
  refine ⟨?_, ?_, ?_⟩ <;> simp [columns, from_row, impl_schema, hsafe]

/-- C2 amended witness: the amended theorem at a concrete descriptor. -/
theorem emission_total_on_literal_safe_witness :
    (impl_schema userTable).isSome = true :=
  (emission_total_on_literal_safe userTable (by decide) (by decide)).2.2

/-! ## C3: error aggregation -/

/-- A descriptor with two independent violations: no Id field, and a
`custom_type` field without a type override. -/
def overrideLessField : TableField :=
  { field := "x", columnOverride := none, role := Role.regular
  , customType := true, typeOverride := none, accessors := [] }

/-- Table carrying the two violations of `overrideLessField` and the absent
Id field. -/
def multiBadTable : Table :=
  { ident := "M", table := "m", insertable := none, deletable := false
  , fields := [overrideLessField] }

/-- C3: one validation pass reports every model violation present in the
descriptor, not merely the first — each violation predicate implies
membership of its error in the single returned list. -/
theorem validate_reports_all_violations (t : Table) :
    (idCount t = 0 → ModelError.missingId ∈ validate t) ∧
    (2 ≤ idCount t → ModelError.duplicateId ∈ validate t) ∧
    (∀ f ∈ t.fields, fieldCustomTypeBad f = true →
      ModelError.missingTypeOverride f.field ∈ validate t) ∧
    (∀ f ∈ t.fields, fieldAccessorBad f = true →
      ModelError.duplicateAccessorKind f.field ∈ validate t) := by
  refine ⟨?_, ?_, ?_, ?_⟩
  · intro h
    simp [validate, h]
  · intro h
    simp [validate, h]
  · intro f hf hb
    simp only [validate, List.mem_append, List.mem_map, List.mem_filter]
    exact Or.inl (Or.inr ⟨f, ⟨hf, hb⟩, rfl⟩)
  · intro f hf hb
    simp only [validate, List.mem_append, List.mem_map, List.mem_filter]
    exact Or.inr ⟨f, ⟨hf, hb⟩, rfl⟩

/-- C3 witness: on a descriptor with two violations, both errors are in the
single returned list. -/
theorem validate_reports_all_violations_witness :
    ModelError.missingId ∈ validate multiBadTable ∧
    ModelError.missingTypeOverride "x" ∈ validate multiBadTable :=
  ⟨(validate_reports_all_violations multiBadTable).1 (by decide),
   (validate_reports_all_violations multiBadTable).2.2.1 overrideLessField
     (by decide) (by decide)⟩

/-! ## C5: from_row reads by column name and propagates failures -/

/-- Unfolding `allReadsOk` over the head field. -/
theorem allReadsOk_cons (f : TableField) (rest : List TableField)
    (row : List (String × Nat)) :
    allReadsOk (f :: rest) row
      = (resultOk (tryGet row f.column) && allReadsOk rest row) := by
  simp [allReadsOk, List.all_cons]

/-- C5: the emitted `from_row` body succeeds exactly when every per-field
by-column-name read succeeds, and when it fails it returns (as a value, not
a panic) precisely the error of a failed `row.try_get(column)` read. -/
theorem from_row_reads_by_name_and_propagates (fields : List TableField)
    (row : List (String × Nat)) :
    (resultOk (fromRowSem fields row) = allReadsOk fields row) ∧
    (∀ e : DbError, fromRowSem fields row = Except.error e →
      ∃ f ∈ fields, tryGet row f.column = Except.error e) := by
  induction fields with
  | nil => simp [fromRowSem, allReadsOk, resultOk]
  | cons f rest ih =>
      cases htg : tryGet row f.column with
      | error e =>
          refine ⟨?_, ?_⟩
          · simp [fromRowSem, allReadsOk, resultOk, htg]
          · intro e' he'
            simp only [fromRowSem, htg, Except.error.injEq] at he'
            exact ⟨f, List.mem_cons_self f rest, by rw [htg, he']⟩
      | ok v =>
          cases hrec : fromRowSem rest row with
          | error e =>
              refine ⟨?_, ?_⟩
              · have h1 : allReadsOk rest row = false := by
                  rw [← ih.1, hrec]; rfl
                rw [allReadsOk_cons, htg, h1]
                simp [fromRowSem, htg, hrec, resultOk]
              · intro e' he'
                simp only [fromRowSem, htg, hrec, Except.error.injEq] at he'
                obtain ⟨g, hg, hge⟩ := ih.2 e (by rw [hrec])
                exact ⟨g, List.mem_cons_of_mem f hg, by rw [hge, he']⟩
          | ok inst =>
              refine ⟨?_, ?_⟩
              · have h1 : allReadsOk rest row = true := by
                  rw [← ih.1, hrec]; rfl
                rw [allReadsOk_cons, htg, h1]
                simp [fromRowSem, htg, hrec, resultOk]
              · intro e' he'
                simp [fromRowSem, htg, hrec] at he'

/-- C5 witness: a field whose column is absent from the row. -/
def missingColField : TableField :=
  { field := "x", columnOverride := some "cx", role := Role.regular
  , customType := false, typeOverride := none, accessors := [] }

/-- C5 witness: the theorem applied to a concrete field list and row. -/
theorem from_row_reads_by_name_witness :
    resultOk (fromRowSem [missingColField] []) = allReadsOk [missingColField] [] :=
  (from_row_reads_by_name_and_propagates [missingColField] []).1

/-! ## C6: arguments binds every field in column order -/

/-- C6: executing the emitted bind procedure on an empty collector adds one
value per field — the field's value, in declaration order — and pairing the
emitted column list positionally with the added values yields exactly the
(column, field value) pairs in declaration order. -/
theorem arguments_binds_in_column_order (t : Table) (inst : List (String × Nat)) :
    bindArgs t.fields inst [] = boundValues t.fields inst ∧
    (bindArgs t.fields inst []).length = t.fields.length ∧
    (columnsSem t).zip (bindArgs t.fields inst []) = colValPairs t.fields inst := by
  have h : bindArgs t.fields inst [] = boundValues t.fields inst := by
    simpa using bindArgs_eq t.fields inst []
  refine ⟨h, ?_, ?_⟩
  · simp [h, boundValues]
  · rw [h]
    simp [columnsSem, columnNames, boundValues, colValPairs, List.zip_map']

/-! ## C7: deterministic emission -/

/-- C7: emission is a pure function of the descriptor — `impl_schema`
depends only on the descriptor's identifier, table name and ordered field
list (in particular no unordered-map iteration enters the output), so two
invocations on the same input yield identical fragments. -/
theorem impl_schema_deterministic (t t' : Table) (hident : t.ident = t'.ident)
    (htable : t.table = t'.table) (hfields : t.fields = t'.fields) :
    impl_schema t = impl_schema t' := by
  simp [impl_schema, columns, from_row, name, arguments, columnsLitSafe,
        columnsFragment, fromRowFragment, hident, htable, hfields]

/-- C7 witness: two descriptors equal up to the parts emission reads
produce the same fragments. -/
theorem impl_schema_deterministic_witness :
    impl_schema userTable = impl_schema { userTable with deletable := false } :=
  impl_schema_deterministic _ _ rfl rfl rfl

/-! ## C8: Insert companion field set -/

/-- C8: for a valid insertable descriptor, a field is in the Insert
companion type exactly when it is a declared field that is neither the Id
field nor a Default-role field. -/
theorem insert_field_set (t : Table) (hv : validate t = [])
    (hins : t.insertable.isSome = true) (f : TableField) :
    f ∈ insertFields t ↔
      f ∈ t.fields ∧ f.role ≠ Role.id ∧ f.role ≠ Role.dbDefault := by
  simp [insertFields, List.mem_filter, and_assoc]

/-- C8 witness: the field-set characterisation at a concrete insertable
descriptor and field. -/
theorem insert_field_set_witness :
    emailField ∈ insertFields userTable ↔
      emailField ∈ userTable.fields ∧ emailField.role ≠ Role.id ∧
        emailField.role ≠ Role.dbDefault :=
  insert_field_set userTable (by decide) (by decide) emailField

/-! ## C10: the empty descriptor -/

/-- A descriptor with no fields at all. -/
def emptyTable : Table :=
  { ident := "E", table := "e", insertable := none, deletable := false
  , fields := [] }

/-- C10: on a descriptor with an empty field list the Schema Emitter still
succeeds: the emitted column vector is empty, the bind procedure leaves the
collector unchanged, and the reconstructor returns the empty instance from
no column reads. -/
theorem empty_fields_emission (t : Table) (h : t.fields = []) :
    (impl_schema t).isSome = true ∧ columnsSem t = [] ∧
    (∀ inst args, bindArgs t.fields inst args = args) ∧
    (∀ row, fromRowSem t.fields row = Except.ok []) := by
  refine ⟨?_, ?_, ?_, ?_⟩ <;>
    simp [impl_schema, columns, from_row, columnsLitSafe, h, columnsSem,
          columnNames, bindArgs, fromRowSem]

/-- C10 witness: the empty descriptor emits successfully. -/
theorem empty_fields_emission_witness : (impl_schema emptyTable).isSome = true :=
  (empty_fields_emission emptyTable rfl).1

/-! ## C9: scope of a column-name override -/

/-- A map over fields that reads only the Rust field name factors through
`fieldNames`. -/
theorem map_field_eq {α : Type} (g : String → α) (l : List TableField) :
    l.map (fun f => g f.field) = (fieldNames l).map g := by
  simp [fieldNames, List.map_map, Function.comp]

/-- Two field lists with the same field names and the same column names are
indistinguishable to a map reading only those two projections. -/
theorem map_proj_congr {α : Type} (g : String → String → α) :
    ∀ (l m : List TableField),
      fieldNames l = fieldNames m → columnNames l = columnNames m →
      l.map (fun f => g f.field f.column) = m.map (fun f => g f.field f.column)
  | [], [], _, _ => rfl
  | [], _ :: _, h1, _ => by simp [fieldNames] at h1
  | _ :: _, [], h1, _ => by simp [fieldNames] at h1
  | a :: l, b :: m, h1, h2 => by
      simp only [fieldNames, List.map_cons, List.cons.injEq] at h1
      simp only [columnNames, List.map_cons, List.cons.injEq] at h2
      simp only [List.map_cons, h1.1, h2.1, List.cons.injEq]
      exact ⟨trivial, map_proj_congr g l m h1.2 h2.2⟩

/-- The generated `from_row` body is determined by the field names and
column names alone. -/
theorem fromRowSem_congr :
    ∀ (l m : List TableField) (row : List (String × Nat)),
      fieldNames l = fieldNames m → columnNames l = columnNames m →
      fromRowSem l row = fromRowSem m row
  | [], [], _, _, _ => rfl
  | [], _ :: _, _, h1, _ => by simp [fieldNames] at h1
  | _ :: _, [], _, h1, _ => by simp [fieldNames] at h1
  | a :: l, b :: m, row, h1, h2 => by
      simp only [fieldNames, List.map_cons, List.cons.injEq] at h1
      simp only [columnNames, List.map_cons, List.cons.injEq] at h2
      simp only [fromRowSem, h1.1, h2.1, fromRowSem_congr l m row h1.2 h2.2]

/-- A successful `from_row` reconstruction assigns exactly the Rust field
names, in declaration order. -/
theorem fromRowSem_ok_fields :
    ∀ (l : List TableField) (row inst : List (String × Nat)),
      fromRowSem l row = Except.ok inst → inst.map Prod.fst = fieldNames l := by
  intro l
  induction l with
  | nil =>
      intro row inst h
      simp only [fromRowSem, Except.ok.injEq] at h
      simp [← h, fieldNames]
  | cons f rest ih =>
      intro row inst h
      simp only [fromRowSem] at h
      cases htg : tryGet row f.column with
      | error e => rw [htg] at h; simp at h
      | ok v =>
          rw [htg] at h
          cases hrec : fromRowSem rest row with
          | error e => rw [hrec] at h; simp at h
          | ok inst' =>
              rw [hrec] at h
              simp only [Except.ok.injEq] at h
              rw [← h]
              simp [fieldNames, List.map_cons]
              exact ih row inst' hrec

/-- C9: a column-name override only moves the column strings.  With the
Rust field names fixed, the emitted bind fragment and its semantics are
unchanged by any override; the `columns` and `from_row` fragments (and the
reconstruction semantics) depend only on the field names and column names;
a successful reconstruction assigns exactly the Rust field names; and the
emitted column entries are exactly the (possibly overridden) column
names. -/
theorem column_override_scope (t t' : Table)
    (hf : fieldNames t.fields = fieldNames t'.fields) :
    arguments t = arguments t' ∧
    (∀ inst args, bindArgs t.fields inst args = bindArgs t'.fields inst args) ∧
    (columnNames t.fields = columnNames t'.fields →
      columnsFragment t = columnsFragment t' ∧
      fromRowFragment t = fromRowFragment t' ∧
      ∀ row, fromRowSem t.fields row = fromRowSem t'.fields row) ∧
    (∀ row inst, fromRowSem t.fields row = Except.ok inst →
      inst.map Prod.fst = fieldNames t.fields) ∧
    columnsSem t = columnNames t.fields := by
  refine ⟨?_, ?_, ?_, ?_, rfl⟩
  · unfold arguments
    rw [map_field_eq (fun n => " arguments.add(&self." ++ n ++ "); "),
        map_field_eq (fun n => " arguments.add(&self." ++ n ++ "); "), hf]
  · intro inst args
    rw [bindArgs_eq, bindArgs_eq]
    unfold boundValues
    rw [map_field_eq (fun n => fieldValue inst n),
        map_field_eq (fun n => fieldValue inst n), hf]
  · intro hc
    refine ⟨?_, ?_, ?_⟩
    · unfold columnsFragment
      exact congrArg (String.intercalate ", ")
        (map_proj_congr (fun _ c => " \"" ++ c ++ "\"") t.fields t'.fields hf hc)
    · unfold fromRowFragment
      exact congrArg (String.intercalate ", ")
        (map_proj_congr (fun n c => " " ++ n ++ ": row.try_get(\"" ++ c ++ "\")?")
          t.fields t'.fields hf hc)
    · intro row
      exact fromRowSem_congr t.fields t'.fields row hf hc
  · intro row inst h
    exact fromRowSem_ok_fields t.fields row inst h

/-- C9 witness: the email field with its column renamed. -/
def emailFieldAliased : TableField :=
  { emailField with columnOverride := some "mail" }

/-- C9 witness: the example descriptor with the renamed email column. -/
def userTableAliased : Table :=
  { userTable with fields := [userIdField, emailFieldAliased] }

/-- C9 witness: the bind fragment is unchanged by the column override. -/
theorem column_override_scope_witness :
    arguments userTable = arguments userTableAliased :=
  (column_override_scope userTable userTableAliased rfl).1

/-! ## C4: bind / from_row round trip

The claim as stated fails: nothing in model validation forbids two fields
sharing one column name, and then both `try_get` reads hit the same column,
so one field gets the other's value back.  With pairwise distinct column
names the round trip is the identity. -/

/-- In an association list with pairwise distinct keys, the first-match
lookup of any member's key returns that member's value. -/
theorem rowGet_mem_nodup :
    ∀ (ps : List (String × Nat)), (ps.map Prod.fst).Nodup →
      ∀ p ∈ ps, rowGet ps p.1 = some p.2 := by
  intro ps
  induction ps with
  | nil => intro _ p hp; cases hp
  | cons q rest ih =>
      intro hnd p hp
      obtain ⟨k, v⟩ := q
      simp only [List.map_cons, List.nodup_cons] at hnd
      rcases List.mem_cons.mp hp with rfl | hp'
      · simp [rowGet]
      · have hne : ¬ k = p.1 := by
          intro he
          exact hnd.1 (he ▸ List.mem_map_of_mem Prod.fst hp')
        simp only [rowGet, hne, if_false]
        exact ih hnd.2 p hp'

/-- When every field's column lookup is known, `from_row` reconstructs the
instance from exactly those reads, assigning to the Rust field names. -/
theorem fromRowSem_of_reads (w : TableField → Nat) :
    ∀ (fields : List TableField) (row : List (String × Nat)),
      (∀ f ∈ fields, rowGet row f.column = some (w f)) →
      fromRowSem fields row = Except.ok (fields.map (fun f => (f.field, w f))) := by
  intro fields
  induction fields with
  | nil => intro row _; simp [fromRowSem]
  | cons f rest ih =>
      intro row h
      have hf := h f (List.mem_cons_self f rest)
      have hr := ih row (fun g hg => h g (List.mem_cons_of_mem f hg))
      simp [fromRowSem, tryGet, hf, hr]

/-- Reading each field's value back out of a well-formed instance with
distinct field names reproduces the instance. -/
theorem map_fieldValue_eq_inst :
    ∀ (fields : List TableField) (inst : List (String × Nat)),
      inst.map Prod.fst = fieldNames fields → (inst.map Prod.fst).Nodup →
      fields.map (fun f => (f.field, fieldValue inst f.field)) = inst := by
  intro fields
  induction fields with
  | nil =>
      intro inst h _
      cases inst with
      | nil => rfl
      | cons p inst' => simp [fieldNames] at h
  | cons f rest ih =>
      intro inst h hnd
      cases inst with
      | nil => simp [fieldNames] at h
      | cons p inst' =>
          obtain ⟨n, v⟩ := p
          simp only [List.map_cons, fieldNames, List.cons.injEq] at h
          obtain ⟨h1, h2⟩ := h
          simp only [List.map_cons, List.nodup_cons] at hnd
          have htail :
              rest.map (fun g => (g.field, fieldValue ((n, v) :: inst') g.field))
                = rest.map (fun g => (g.field, fieldValue inst' g.field)) := by
            apply List.map_congr_left
            intro g hg
            have hgn : ¬ n = g.field := by
              intro he
              apply hnd.1
              rw [he, h2]
              exact List.mem_map_of_mem TableField.field hg
            simp [fieldValue, rowGet, hgn]
          rw [List.map_cons, htail, ih inst' h2 hnd.2]
          have hhead : fieldValue ((n, v) :: inst') f.field = v := by
            simp [fieldValue, rowGet, h1]
          rw [hhead, h1]

deriving instance DecidableEq for Except

/-- C4 counterexample data: a validated descriptor where two fields share
the column `c`. -/
def dupIdField : TableField :=
  { field := "did", columnOverride := none, role := Role.id
  , customType := false, typeOverride := none, accessors := [] }

/-- First field bound to column `c`. -/
def dupFieldA : TableField :=
  { field := "a", columnOverride := some "c", role := Role.regular
  , customType := false, typeOverride := none, accessors := [] }

/-- Second field bound to the same column `c`. -/
def dupFieldB : TableField :=
  { field := "b", columnOverride := some "c", role := Role.regular
  , customType := false, typeOverride := none, accessors := [] }

/-- Descriptor with a duplicated column name; it passes model validation. -/
def dupColTable : Table :=
  { ident := "D", table := "d", insertable := none, deletable := false
  , fields := [dupIdField, dupFieldA, dupFieldB] }

/-- An instance of `dupColTable` whose two `c`-column fields differ. -/
def dupInst : List (String × Nat) := [("did", 7), ("a", 1), ("b", 2)]

/-- C4 counterexample: on a validated descriptor with two fields sharing a
column name, binding then reconstructing does not return the original
instance (field `b` reads back field `a`'s value). -/
theorem round_trip_fails_on_duplicate_columns :
    validate dupColTable = [] ∧
    wellFormedInst dupColTable dupInst ∧
    fromRowSem dupColTable.fields (rowOf dupColTable dupInst) ≠ Except.ok dupInst := by
  decide

/-- C4 amended: for a validated descriptor whose column names are pairwise
distinct (field names of a Rust struct are always distinct), binding an
instance into the argument collector and reconstructing from the row of the
resulting column/value pairs returns the original instance. -/
theorem bind_from_row_round_trip (t : Table) (inst : List (String × Nat))
    (hv : validate t = [])
    (hfnd : (fieldNames t.fields).Nodup)
    (hcnd : (columnNames t.fields).Nodup)
    (hwf : wellFormedInst t inst) :
    fromRowSem t.fields (rowOf t inst) = Except.ok inst := by
  have hrow : rowOf t inst = colValPairs t.fields inst := by
    rw [rowOf, bindArgs_eq, List.nil_append]
    simp [columnsSem, columnNames, boundValues, colValPairs, List.zip_map']
  have hkeys : (colValPairs t.fields inst).map Prod.fst = columnNames t.fields := by
    simp [colValPairs, columnNames, List.map_map, Function.comp]
  have hreads : ∀ f ∈ t.fields,
      rowGet (rowOf t inst) f.column = some (fieldValue inst f.field) := by
    intro f hf
    rw [hrow]
    exact rowGet_mem_nodup (colValPairs t.fields inst) (by rw [hkeys]; exact hcnd)
      (f.column, fieldValue inst f.field) (List.mem_map_of_mem _ hf)
  rw [fromRowSem_of_reads (fun f => fieldValue inst f.field) t.fields (rowOf t inst) hreads]
  exact congrArg Except.ok
    (map_fieldValue_eq_inst t.fields inst hwf (by rw [hwf]; exact hfnd))

/-- C4 amended witness data: an instance of the example descriptor. -/
def userInst : List (String × Nat) := [("user_id", 42), ("email", 5)]

/-- C4 amended witness: the round trip is the identity on a concrete
descriptor and instance. -/
theorem bind_from_row_round_trip_witness :
    fromRowSem userTable.fields (rowOf userTable userInst) = Except.ok userInst :=
  bind_from_row_round_trip userTable userInst (by decide) (by decide) (by decide)
    (by decide)

end Ormx
